import Mathlib

/-!
Verification development for the H-Edit utilities (`utils.py`).

The repository stores a graph document as a JSON dict
`{data: [{data: str, id: int, ...}, ...], conn: [(Id, Id), ...]}` where an
`Id` is either an integer (a node id) or a pair of `Id`s (an edge used as an
endpoint).  The Python class `HDict` provides traversal (`connected`),
hypergraph flattening (`edge_ids`, `as_hypergraph`), a node-role classifier
(`node_types`), schema synthesis (`synthesize_structure`), object
materialization (`as_objects`), a content lookup (`get_node_id`) and the
standalone stream predicates (`maybe_duplicate`, `maybe_single`,
`maybe_cycle_elem`).  Everything below is a direct shallow embedding of that
source; Python exceptions are modelled with `Except HErr`.
-/

namespace HEdit

/-- The recursive id type of the storage format: an `Id` is either an integer
(node id) or a pair of `Id`s (a tuple in Python, i.e. an edge value). -/
inductive HId where
  | node (n : Int)
  | comp (s d : HId)
deriving DecidableEq, Repr

/-- Models Python's `isinstance(x, int)` on an `Id` (`to_node` in `connected`). -/
def HId.isNode : HId → Bool
  | .node _ => true
  | .comp _ _ => false

/-- An entry of the `conn` list: an ordered pair of ids. -/
abbrev Edge := HId × HId

/-- The tuple value of an edge, as used when an edge itself serves as an id
(Python compares the raw tuple `e` with yielded ids). -/
def toId (e : Edge) : HId := HId.comp e.1 e.2

/-- The document modes recognised by `load_from_path` / `allow_in`. -/
inductive Mode where
  | H | T | property_graph | edge_colored_graph | graph
deriving DecidableEq, Repr

/-- The `returns` filter of `connected`. -/
inductive Returns where
  | nodes | edges | both
deriving DecidableEq, Repr

/-- The `direction` argument of `connected` (and of `maybe_duplicate` /
`maybe_single`, which use the same strings). -/
inductive Direction where
  | outgoing | incoming | either
deriving DecidableEq, Repr

/-- The `flatten` argument of `edge_ids`. -/
inductive Flatten where
  | incoming | outgoing | both
deriving DecidableEq, Repr

/-- A node record of the `data` list (only the two fields the core reads). -/
structure Node where
  id : Int
  data : String
deriving DecidableEq, Repr

/-- The in-memory document (an `HDict`): the mandatory `data` and `conn`
fields plus the optional `mode` and `name` entries the core consults. -/
structure HDoc where
  data : List Node
  conn : List Edge
  mode : Option Mode := none
  name : Option String := none

/-- The Python exceptions raised by the embedded operations. -/
inductive HErr where
  /-- The `ValueError` raised by the `allow_in` decorator when the document's
  mode is outside the method's allowed set. -/
  | modeErr (op : String)
  /-- The `KeyError` (missing node id in `get_info`, no match in `get_node_id`,
  missing key of `id_object`). -/
  | keyErr
  /-- The `ValueError` of `get_node_id` naming the two conflicting ids. -/
  | ambiguous (a b : Int)
  /-- The `ValueError` from unpacking `zip(*es)` when `es` is empty. -/
  | unpackErr
  /-- The `TypeError` from `zip(*es)` when an element of `es` is a plain int. -/
  | typeErr
  /-- The `StopIteration` from `next(ins)` on an empty stream. -/
  | stopIter
  /-- The `AssertionError` of the disjointness assert in `node_types`. -/
  | assertErr
deriving DecidableEq, Repr

/-- Successful payload of an `Except`, if any. -/
def okValue {α : Type} : Except HErr α → Option α
  | .ok a => some a
  | .error _ => none

/-- Whether a result is the `allow_in` mode error. -/
def isModeErr {α : Type} : Except HErr α → Bool
  | .error (.modeErr _) => true
  | _ => false

/-- Whether an exception is the `allow_in` mode error. -/
def isModeErrE : HErr → Bool
  | .modeErr _ => true
  | _ => false

/-- The `allow_in(*modes)` guard condition:
`'mode' not in ins or ins['mode'] in modes`. -/
def allow_in (modes : List Mode) (doc : HDoc) : Bool :=
  match doc.mode with
  | none => true
  | some m => modes.contains m

/-- The `connected` restricted to a single direction and no `via_ids`
(`outgoing = true` selects `src, dst = e`; `false` selects `reversed(e)`).
This is the form `connected(via_id, direction='outgoing')` used inside the
via-filter of `connected` itself. -/
def connected_base (conn : List Edge) (itemId : HId) (returns : Returns) (outgoing : Bool) : List HId :=
  conn.filterMap fun e =>
    let src := if outgoing then e.1 else e.2
    let dst := if outgoing then e.2 else e.1
    if src != itemId then none
    else if (returns == .edges && dst.isNode) || (returns == .nodes && !dst.isNode) then none
    else some dst

/-- The single-direction body of `connected`, with the `via_ids` filter: an
edge is kept only if, for every `via`, the edge tuple itself occurs among
`connected(via, direction='outgoing')`. -/
def connected_dir (conn : List Edge) (itemId : HId) (viaIds : List HId) (returns : Returns) (outgoing : Bool) : List HId :=
  conn.filterMap fun e =>
    let src := if outgoing then e.1 else e.2
    let dst := if outgoing then e.2 else e.1
    if src != itemId then none
    else if (returns == .edges && dst.isNode) || (returns == .nodes && !dst.isNode) then none
    else if viaIds.all (fun via => (connected_base conn via .both true).contains (toId e)) then some dst
    else none

/-- The `HDict.connected`: `direction='either'` yields the `incoming` results
followed by the `outgoing` results; the directional cases scan `conn` in
order. -/
def connected (conn : List Edge) (itemId : HId) (viaIds : List HId) (returns : Returns) (direction : Direction) : List HId :=
  match direction with
  | .either => connected_dir conn itemId viaIds returns false ++ connected_dir conn itemId viaIds returns true
  | .incoming => connected_dir conn itemId viaIds returns false
  | .outgoing => connected_dir conn itemId viaIds returns true

/-- The `match_zero(**way)` predicate of `node_types`:
`next(self.connected(node['id'], **way), None) is None`. -/
def match_zero (doc : HDoc) (returns : Returns) (direction : Direction) (n : Node) : Bool :=
  (connected doc.conn (.node n.id) [] returns direction).isEmpty

/-- The `id_set` helper of `node_types` applied to `find_nodes(p)`. -/
def id_set (doc : HDoc) (p : Node → Bool) : Finset Int :=
  ((doc.data.filter p).map Node.id).toFinset

/-- The `id_set(self['data'])`: the ids of all nodes of the document. -/
def all_ids (doc : HDoc) : Finset Int :=
  (doc.data.map Node.id).toFinset

/-- Nodes with no incoming connections. -/
def no_incoming (doc : HDoc) : Finset Int :=
  id_set doc (match_zero doc .both .incoming)

/-- Nodes with no outgoing connections. -/
def no_outgoing (doc : HDoc) : Finset Int :=
  id_set doc (match_zero doc .both .outgoing)

/-- Nodes with no outgoing connection to an edge. -/
def only_to_nodes (doc : HDoc) : Finset Int :=
  id_set doc (match_zero doc .edges .outgoing)

/-- Nodes with no outgoing connection to a node. -/
def only_to_edges (doc : HDoc) : Finset Int :=
  id_set doc (match_zero doc .nodes .outgoing)

/-- Nodes with no connections at all (`returns='both', direction='either'`). -/
def disconnected_nodes (doc : HDoc) : Finset Int :=
  id_set doc (match_zero doc .both .either)

/-- The `type_1` of `node_types`. -/
def type_1 (doc : HDoc) : Finset Int :=
  ((no_incoming doc ∪ no_outgoing doc) ∩ only_to_nodes doc) \ disconnected_nodes doc

/-- The `type_2` of `node_types`. -/
def type_2 (doc : HDoc) : Finset Int :=
  (no_incoming doc ∩ only_to_edges doc) \ disconnected_nodes doc

/-- The `type_3` of `node_types`. -/
def type_3 (doc : HDoc) : Finset Int :=
  ((all_ids doc \ type_1 doc) \ type_2 doc) \ disconnected_nodes doc

/-- The `HDict.node_types`, guarded by
`allow_in('property_graph', 'edge_colored_graph')`, including the chained
disjointness `assert`. -/
def node_types (doc : HDoc) : Except HErr (Finset Int × Finset Int × Finset Int) :=
  if allow_in [.property_graph, .edge_colored_graph] doc then
    if type_1 doc ∩ type_2 doc = type_2 doc ∩ type_3 doc ∧
       type_2 doc ∩ type_3 doc = type_3 doc ∩ type_1 doc ∧
       type_3 doc ∩ type_1 doc = ∅ then
      .ok (type_1 doc, type_2 doc, type_3 doc)
    else .error .assertErr
  else .error (.modeErr "node_types")

/-- The `considered` filter of `get_node_id`:
`(allowed is None or n['id'] in allowed) and n['id'] not in disallowed`. -/
def considered (allowed : Option (List Int)) (disallowed : List Int) (n : Node) : Bool :=
  (match allowed with
   | none => true
   | some l => l.contains n.id) && !disallowed.contains n.id

/-- The `HDict.get_node_id`: the ids of the nodes matching `considered` and
`data=data` are taken in `data`-list order; no match raises `KeyError`, a
second match raises the ambiguity `ValueError` naming the first two ids
(the Python iterator draws at most two elements; on a pure list this is the
match below). -/
def get_node_id (doc : HDoc) (data : String) (allowed : Option (List Int) := none)
    (disallowed : List Int := []) : Except HErr Int :=
  match (doc.data.filter (fun n => considered allowed disallowed n && n.data == data)).map Node.id with
  | [] => .error .keyErr
  | [r] => .ok r
  | r :: c :: _ => .error (.ambiguous r c)

/-- The `edge_ids(e)` at the default `flatten='outgoing'` (every recursive call
of the source uses this default): yield the source as-is, then unfold the
destination spine. -/
def edge_ids_outgoing (s d : HId) : List HId :=
  s :: (match d with
        | .comp a b => edge_ids_outgoing a b
        | .node n => [.node n])

/-- The `edge_ids(e, flatten)`: yield the source, recursing (always with the
default `flatten='outgoing'`, i.e. `edge_ids_outgoing`) when the source is
a tuple and the incoming side is flattened; then symmetrically the
destination. -/
def edge_ids (s d : HId) (flatten : Flatten) : List HId :=
  (match flatten, s with
   | .incoming, .comp a b => edge_ids_outgoing a b
   | .both, .comp a b => edge_ids_outgoing a b
   | _, _ => [s]) ++
  (match flatten, d with
   | .outgoing, .comp a b => edge_ids_outgoing a b
   | .both, .comp a b => edge_ids_outgoing a b
   | _, _ => [d])

/-- The `HDict.as_hypergraph`, guarded by
`allow_in('T', 'property_graph', 'edge_colored_graph', 'graph')`: each
`conn` entry is flattened by `edge_ids` unless `remove_subsumed` holds and
`connected(e, direction='incoming')` is non-empty. -/
def as_hypergraph (doc : HDoc) (remove_subsumed : Bool := true) : Except HErr (List (List HId)) :=
  if allow_in [.T, .property_graph, .edge_colored_graph, .graph] doc then
    .ok (doc.conn.filterMap fun e =>
      if !remove_subsumed || (connected doc.conn (toId e) [] .both .incoming).isEmpty then
        some (edge_ids e.1 e.2 .outgoing)
      else none)
  else .error (.modeErr "as_hypergraph")

/-- Python truthiness of an id value: the int `0` is falsy, every other int
and every (non-empty) tuple is truthy. -/
def pyTruthy : HId → Bool
  | .node n => n != 0
  | .comp _ _ => true

/-- Python's `x or y` on optional id values: `None` and the falsy id `0`
fall through to `y`. -/
def pyOr (x y : Option HId) : Option HId :=
  match x with
  | some v => if pyTruthy v then some v else y
  | none => y

/-- The scanning loop of `maybe_duplicate`: the first value already in the
`extrema` set, in stream order. -/
def firstDup (extrema : Finset HId) : List HId → Option HId
  | [] => none
  | e :: rest => if e ∈ extrema then some e else firstDup (insert e extrema) rest

/-- The directional body of `maybe_duplicate`:
`itemgetter(0 if direction == 'incoming' else 1)` over the edge list. -/
def maybe_duplicate_at (it : List (HId × HId)) (incoming : Bool) : Option HId :=
  firstDup ∅ (it.map (fun e => if incoming then e.1 else e.2))

/-- The `maybe_duplicate(it, direction)`; the `either` case is
`maybe_duplicate(it_in, 'incoming') or maybe_duplicate(it_out, 'outgoing')`
with Python's falsy `or` (modelled by `pyOr`). -/
def maybe_duplicate (it : List (HId × HId)) (direction : Direction) : Option HId :=
  match direction with
  | .either => pyOr (maybe_duplicate_at it true) (maybe_duplicate_at it false)
  | .incoming => maybe_duplicate_at it true
  | .outgoing => maybe_duplicate_at it false

/-- The directional body of `maybe_single`: the first value at the chosen
position if all further values equal it; `None` on an empty stream. -/
def maybe_single_at (it : List (HId × HId)) (incoming : Bool) : Option HId :=
  match it.map (fun e => if incoming then e.1 else e.2) with
  | [] => none
  | v :: rest => if rest.all (fun e => e == v) then some v else none

/-- The `maybe_single(it, direction)`; the `either` case uses Python's falsy
`or` like `maybe_duplicate`. -/
def maybe_single (it : List (HId × HId)) (direction : Direction) : Option HId :=
  match direction with
  | .either => pyOr (maybe_single_at it true) (maybe_single_at it false)
  | .incoming => maybe_single_at it true
  | .outgoing => maybe_single_at it false

/-- The `reachable` mapping of `maybe_cycle_elem` in insertion order.
(The `defaultdict` also materialises empty sets for keys merely read; such
entries never satisfy a membership test, so they are omitted here.) -/
abbrev RState := List (HId × Finset HId)

/-- Read `reachable[k]` (empty when absent). -/
def rLookup (st : RState) (k : HId) : Finset HId :=
  match st.find? (fun p => p.1 == k) with
  | some p => p.2
  | none => ∅

/-- Add values to `reachable[k]`, creating the entry if needed. -/
def rAdd (st : RState) (k : HId) (vs : Finset HId) : RState :=
  if (st.find? (fun p => p.1 == k)).isSome then
    st.map (fun p => if p.1 == k then (p.1, p.2 ∪ vs) else p)
  else st ++ [(k, vs)]

/-- The inner loop of `maybe_cycle_elem` over the snapshot of keys:
`none` signals `return s, d`; otherwise the updated state is produced. -/
def cycleInner (s d : HId) : List HId → RState → Option RState
  | [], st => some st
  | a :: rest, st =>
    let bs := rLookup st a
    if s ∈ bs then
      if a == d || a ∈ rLookup st d then none
      else cycleInner s d rest (rAdd st a (insert d (rLookup st d)))
    else cycleInner s d rest st

/-- The edge loop of `maybe_cycle_elem`. -/
def cycleOuter : List (HId × HId) → RState → Option (HId × HId)
  | [], _ => none
  | (s, d) :: rest, st =>
    let st1 := rAdd st s {d}
    match cycleInner s d (st1.map (fun p => p.1)) st1 with
    | none => some (s, d)
    | some st2 => cycleOuter rest st2

/-- The `maybe_cycle_elem(it)`: incremental reachability with an early return of
the pair that completes a cycle. -/
def maybe_cycle_elem (it : List (HId × HId)) : Option (HId × HId) :=
  cycleOuter it []

/-- One-step edge relation of a pair list (for stating what a genuine cycle
is). -/
def edgeStep (E : List (HId × HId)) (a b : HId) : Prop := (a, b) ∈ E

/-- Sequential `Except`-valued map, mirroring a Python loop that stops at the
first raised exception. -/
def mapE {α β : Type} (f : α → Except HErr β) : List α → Except HErr (List β)
  | [] => .ok []
  | a :: l =>
    match f a with
    | .error e => .error e
    | .ok b =>
      match mapE f l with
      | .error e => .error e
      | .ok bs => .ok (b :: bs)

/-- Sequential `Option`-valued map. -/
def mapO {α β : Type} (f : α → Option β) : List α → Option (List β)
  | [] => some []
  | a :: l =>
    match f a with
    | none => none
    | some b =>
      match mapO f l with
      | none => none
      | some bs => some (b :: bs)

/-- View an id as the pair Python's `zip(*es)` / `itemgetter` unpacking
expects; a plain int is not iterable (`TypeError`). -/
def asPair : HId → Option (HId × HId)
  | .comp a b => some (a, b)
  | .node _ => none

/-- Membership of an endpoint value in the `type_3` id set (Python
intersects a set of ints with the endpoint tuple: only plain ints can
match). -/
def isItemOf (t3 : Finset Int) : HId → Bool
  | .node n => decide (n ∈ t3)
  | .comp _ _ => false

/-- The loop body of `synthesize_structure` for one `type_2` node: collect
`es = connected(i)`, split `zip(*es)` into source/destination items, choose
the direction the items live on, and derive the field type from
`maybe_duplicate` (`es` empty raises the unpack `ValueError`; a non-pair
element of `es` raises `TypeError` in `zip`). -/
def synthField (doc : HDoc) (t3 : Finset Int) (clsName : String) (i : Int) (data : String) :
    Except HErr (String × String) :=
  let es := connected doc.conn (.node i) [] .both .outgoing
  match mapO asPair es with
  | none => .error .typeErr
  | some pairs =>
    if pairs.isEmpty then .error .unpackErr
    else
      let s_items := (pairs.map (fun e => e.1)).filter (isItemOf t3)
      let d_items := (pairs.map (fun e => e.2)).filter (isItemOf t3)
      let between_items := !s_items.isEmpty && !d_items.isEmpty
      let item_direction : Direction :=
        if between_items then .either
        else if !d_items.isEmpty then .outgoing else .incoming
      let sole := (maybe_duplicate pairs item_direction).isNone
      let base_type := if between_items then clsName else "str"
      let field_type := if sole then base_type else "List[" ++ base_type ++ "]"
      .ok (data, field_type)

/-- The `HDict.synthesize_structure`, guarded by
`allow_in('property_graph', 'edge_colored_graph')`.  The produced dataclass
is modelled by its name and ordered field list `(field name, field type)`;
`get_info(type_2, 'id', 'data')` is interleaved with the loop body, so a
missing id raises `KeyError` in stream order. -/
def synthesize_structure (doc : HDoc) (type2 : List Int) (t3 : Finset Int) :
    Except HErr (String × List (String × String)) :=
  if allow_in [.property_graph, .edge_colored_graph] doc then
    let clsName := (match doc.name with | some s => s | none => "") ++ "Item"
    match mapE (fun i =>
        match doc.data.find? (fun n => n.id == i) with
        | none => .error .keyErr
        | some n => synthField doc t3 clsName n.id n.data) type2 with
    | .error e => .error e
    | .ok fields => .ok (clsName, [("id", "int"), ("data", "str")] ++ fields)
  else .error (.modeErr "synthesize_structure")

/-- The type expressions `as_objects` meets through `typing.get_type_hints`:
`str`, `int`, the synthesized item class, and `List[...]`. -/
inductive PyType where
  | pyStr | pyInt | pyCls | pyList (t : PyType)
deriving DecidableEq, Repr

/-- The `proper_collection(C)`: a collection type other than `str`. -/
def proper_collection : PyType → Bool
  | .pyList _ => true
  | _ => false

/-- The `collection_of(C, cls)`: a proper collection whose single type argument
subclasses the item class. -/
def collection_of : PyType → Bool
  | .pyList .pyCls => true
  | _ => false

/-- A materialized object: the `cls(id, data)` constructor fields plus the
attributes set by `as_objects` (item references are kept by id). -/
inductive AttrVal where
  | vStr (s : String)
  | vRef (i : Int)
  | vStrs (l : List String)
  | vRefs (l : List Int)
deriving DecidableEq, Repr

/-- An instance of the synthesized class. -/
structure PyObj where
  id : Int
  data : String
  attrs : List (String × AttrVal) := []
deriving DecidableEq, Repr

/-- Python `dict` built from a pair list: lookup of the last binding. -/
def dictFind (ps : List (String × Int)) (k : String) : Option Int :=
  match ps.reverse.find? (fun p => p.1 == k) with
  | some p => some p.2
  | none => none

/-- The `id_object[x]`: only a plain int key can be present; a miss raises
`KeyError`. -/
def objGet (id_object : List (Int × PyObj)) (x : HId) : Except HErr PyObj :=
  match x with
  | .node n =>
    match id_object.reverse.find? (fun p => p.1 == n) with
    | some p => .ok p.2
    | none => .error .keyErr
  | .comp _ _ => .error .keyErr

/-- The `get_info(x, 'data')` for a single id: the data of the first node whose
id equals `x` (a tuple id never matches; a miss raises `KeyError`). -/
def dataGet (doc : HDoc) (x : HId) : Except HErr String :=
  match x with
  | .node n =>
    match doc.data.find? (fun nd => nd.id == n) with
    | some nd => .ok nd.data
    | none => .error .keyErr
  | .comp _ _ => .error .keyErr

/-- The `setattr(o, d, prs)`: replace an existing attribute binding or append a
new one. -/
def setAttr (o : PyObj) (d : String) (v : AttrVal) : PyObj :=
  { o with attrs :=
      if (o.attrs.find? (fun p => p.1 == d)).isSome then
        o.attrs.map (fun p => if p.1 == d then (d, v) else p)
      else o.attrs ++ [(d, v)] }

/-- The per-object body of the `as_objects` hint loop:
`ids = connected(o.id, prop_id[d], direction='outgoing')`, then resolve via
`id_object` (item references) or `get_info(..., 'data')` (tag strings);
`list(ins)` forces every element, `next(ins)` only the first (raising
`StopIteration` when there is none). -/
def applyHint (doc : HDoc) (id_object : List (Int × PyObj)) (pid : Int) (T : PyType)
    (o : PyObj) : Except HErr AttrVal :=
  let ids := connected doc.conn (.node o.id) [.node pid] .both .outgoing
  if collection_of T then
    if proper_collection T then
      match mapE (objGet id_object) ids with
      | .error e => .error e
      | .ok os => .ok (.vRefs (os.map PyObj.id))
    else
      match ids with
      | [] => .error .stopIter
      | x :: _ =>
        match objGet id_object x with
        | .error e => .error e
        | .ok ob => .ok (.vRef ob.id)
  else
    if proper_collection T then
      match mapE (dataGet doc) ids with
      | .error e => .error e
      | .ok ss => .ok (.vStrs ss)
    else
      match ids with
      | [] => .error .stopIter
      | x :: _ =>
        match dataGet doc x with
        | .error e => .error e
        | .ok s => .ok (.vStr s)

/-- The hint loop of `as_objects`: hints whose name is not a `type_2` data
string are skipped; otherwise every object gets the attribute.  (Resolution
reads only ids, which `setattr` never changes, so looking objects up in the
pre-iteration `id_object` matches the in-place mutation of the source.) -/
def objectsLoop (doc : HDoc) (prop_id : List (String × Int)) :
    List (String × PyType) → List (Int × PyObj) → Except HErr (List (Int × PyObj))
  | [], id_object => .ok id_object
  | (d, T) :: rest, id_object =>
    match dictFind prop_id d with
    | none => objectsLoop doc prop_id rest id_object
    | some pid =>
      match mapE (fun p =>
          match applyHint doc id_object pid T p.2 with
          | .error e => .error e
          | .ok v => .ok (p.1, setAttr p.2 d v)) id_object with
      | .error e => .error e
      | .ok id_object2 => objectsLoop doc prop_id rest id_object2

/-- The `HDict.as_objects`, guarded by
`allow_in('property_graph', 'edge_colored_graph')`.  The class is modelled
by its ordered type hints; `type_1` is accepted and unused as in the
source. -/
def as_objects (doc : HDoc) (type1 type2 type3 : List Int)
    (hints : List (String × PyType)) : Except HErr (List PyObj) :=
  if allow_in [.property_graph, .edge_colored_graph] doc then
    match mapE (fun i =>
        match doc.data.find? (fun n => n.id == i) with
        | none => .error .keyErr
        | some n => .ok (n.data, n.id)) type2 with
    | .error e => .error e
    | .ok prop_id =>
      match mapE (fun i =>
          match doc.data.find? (fun n => n.id == i) with
          | none => .error .keyErr
          | some n => .ok (i, ({ id := n.id, data := n.data } : PyObj))) type3 with
      | .error e => .error e
      | .ok id_object =>
        match objectsLoop doc prop_id hints id_object with
        | .error e => .error e
        | .ok id_object2 => .ok (id_object2.map (fun p => p.2))
  else .error (.modeErr "as_objects")

/-- The outgoing-flattening of a destination spine (proof-side normal form
of `edge_ids _ _ .outgoing`). -/
def flattenOut : HId → List HId
  | .node n => [.node n]
  | .comp a b => a :: flattenOut b

/-- Destination spines all whose source components are plain ids: exactly
the edges whose outgoing flattening consists of plain ids. -/
def rightSpine : HId → Bool
  | .node _ => true
  | .comp (.node _) b => rightSpine b
  | .comp (.comp _ _) _ => false

/-- A property-graph document: items `1` ("alice") and `4` ("bob") linked
both ways, tags `2` and `3`, and a relation node `10` ("owns") tagging the
two item-to-tag connections `1 → 2` and `1 → 3` (same item, distinct
tags). -/
def exSameItem : HDoc :=
  { data := [⟨1, "alice"⟩, ⟨4, "bob"⟩, ⟨2, "t1"⟩, ⟨3, "t2"⟩, ⟨10, "owns"⟩],
    conn := [(.node 1, .node 2), (.node 1, .node 3), (.node 1, .node 4), (.node 4, .node 1),
             (.node 10, .comp (.node 1) (.node 2)), (.node 10, .comp (.node 1) (.node 3))],
    mode := some .property_graph }

/-- Like `exSameItem`, but the two tagged connections `1 → 2` and `4 → 3`
start from distinct items. -/
def exDistinctItems : HDoc :=
  { data := [⟨1, "alice"⟩, ⟨4, "bob"⟩, ⟨2, "t1"⟩, ⟨3, "t2"⟩, ⟨10, "owns"⟩],
    conn := [(.node 1, .node 2), (.node 4, .node 3), (.node 1, .node 4), (.node 4, .node 1),
             (.node 10, .comp (.node 1) (.node 2)), (.node 10, .comp (.node 4) (.node 3))],
    mode := some .property_graph }

/-- A T-mode document with the single tree-edge `(0, (1, 2))` and its inner
edge `(1, 2)`. -/
def exTree : HDoc :=
  { data := [⟨0, "r"⟩, ⟨1, "a"⟩, ⟨2, "b"⟩],
    conn := [(.node 1, .node 2), (.node 0, .comp (.node 1) (.node 2))],
    mode := some .T }

/-- The edge sequence `4→1, 3→4, 2→3, 1→2`: a 4-cycle whose edges arrive in
reverse traversal order. -/
def cyc4 : List (HId × HId) :=
  [(.node 4, .node 1), (.node 3, .node 4), (.node 2, .node 3), (.node 1, .node 2)]

theorem edge_ids_outgoing_eq (d s : HId) :
    edge_ids_outgoing s d = s :: flattenOut d := by
  induction d generalizing s with
  | node n => rfl
  | comp a b iha ihb => rw [edge_ids_outgoing, flattenOut]; rw [ihb a]

theorem edge_ids_at_outgoing (s d : HId) :
    edge_ids s d .outgoing = edge_ids_outgoing s d := by
  cases s <;> cases d <;> rfl

theorem flattenOut_ne_nil (d : HId) : flattenOut d ≠ [] := by
  cases d <;> simp [flattenOut]

theorem edge_ids_ne_nil (s d : HId) (fl : Flatten) : edge_ids s d fl ≠ [] := by
  rcases fl <;> rcases s <;> rcases d <;>
    simp [edge_ids, edge_ids_outgoing, edge_ids_outgoing_eq]

theorem flattenOut_inj (d : HId) : ∀ d2 : HId, flattenOut d = flattenOut d2 → d = d2 := by
  induction d with
  | node n =>
    intro d2 h
    cases d2 with
    | node m => simpa [flattenOut] using h
    | comp a b =>
      exfalso
      simp only [flattenOut, List.cons.injEq] at h
      exact flattenOut_ne_nil b h.2.symm
  | comp a b iha ihb =>
    intro d2 h
    cases d2 with
    | node m =>
      exfalso
      simp only [flattenOut, List.cons.injEq] at h
      exact flattenOut_ne_nil b h.2
    | comp a2 b2 =>
      simp only [flattenOut, List.cons.injEq] at h
      rw [h.1, ihb b2 h.2]

theorem flattenOut_plain (d : HId) (hd : rightSpine d = true) :
    ∀ x ∈ flattenOut d, x.isNode = true := by
  induction d with
  | node n => intro x hx; simp [flattenOut] at hx; simp [hx, HId.isNode]
  | comp a b iha ihb =>
    intro x hx
    cases a with
    | node m =>
      simp only [rightSpine] at hd
      simp only [flattenOut, List.mem_cons] at hx
      rcases hx with h | h
      · simp [h, HId.isNode]
      · exact ihb hd x h
    | comp a1 a2 => simp [rightSpine] at hd

/-- C8: `connected` with `direction='either'` is exactly the `incoming`
results followed by the `outgoing` results, for every item id, via-id list
and returns filter, with no deduplication. -/
theorem C8_either_concat (conn : List Edge) (itemId : HId) (viaIds : List HId) (returns : Returns) :
    connected conn itemId viaIds returns .either =
      connected conn itemId viaIds returns .incoming ++
        connected conn itemId viaIds returns .outgoing := rfl

/-- C3: on `[(0,1),(0,2)]` with `direction='either'`, `maybe_duplicate`
returns `none` although the source values `0, 0` are not pairwise distinct
(the incoming pass does find the duplicate `0`): Python's falsy `or` drops
the duplicate id `0`, contradicting the claim and the function's own
docstring. -/
theorem C3_falsy_zero_duplicate :
    maybe_duplicate [(.node 0, .node 1), (.node 0, .node 2)] .either = none ∧
    maybe_duplicate_at [(.node 0, .node 1), (.node 0, .node 2)] true = some (.node 0) ∧
    ¬ ([((HId.node 0 : HId), (HId.node 1 : HId)), (.node 0, .node 2)].map
        (fun e => e.1)).Nodup := by decide

/-- C4: on `[(0,1),(0,2)]` with `direction='either'`, `maybe_single` returns
`none` although all source values are pairwise equal (to `0`): Python's
falsy `or` drops the common id `0`, contradicting the claim and the
function's own docstring. -/
theorem C4_falsy_zero_single :
    maybe_single [(.node 0, .node 1), (.node 0, .node 2)] .either = none ∧
    maybe_single_at [(.node 0, .node 1), (.node 0, .node 2)] true = some (.node 0) ∧
    ([((HId.node 0 : HId), (HId.node 1 : HId)), (.node 0, .node 2)].map
        (fun e => e.1)).all (fun v => v == .node 0) = true := by decide

/-- C5: on the edge sequence `4→1, 3→4, 2→3, 1→2`, `maybe_cycle_elem`
returns `none` although the four pairs form the genuine cycle
`1→2→3→4→1`: the incremental reachability update misses closures through
entries whose sets were extended before their key gained a successor. -/
theorem C5_missed_cycle :
    maybe_cycle_elem cyc4 = none ∧
    Relation.TransGen (edgeStep cyc4) (.node 1) (.node 1) := by
  refine ⟨by decide, ?_⟩
  exact .head (show ((HId.node 1, HId.node 2) ∈ cyc4) by decide)
    (.head (show ((HId.node 2, HId.node 3) ∈ cyc4) by decide)
      (.head (show ((HId.node 3, HId.node 4) ∈ cyc4) by decide)
        (.single (show ((HId.node 4, HId.node 1) ∈ cyc4) by decide))))

/-- C7 counterexample: for the edge `((1, 2), 3)` with `flatten='outgoing'`
the produced sequence contains the nested source `(1, 2)` itself, so it
does not consist only of plain integer ids. -/
theorem C7_nested_source_counterexample :
    ¬ (∀ x ∈ edge_ids (.comp (.node 1) (.node 2)) (.node 3) .outgoing,
        x.isNode = true) := by decide

/-- C7 amended: `edge_ids` always yields an ordered non-empty sequence, and
under `flatten='outgoing'` it yields only plain ids when the source is a
plain id and every source component along the destination spine is a plain
id (recursion below the top level always uses `flatten='outgoing'`); in
particular the tree-edge `(0, (1, 2))` flattens to `[0, 1, 2]`. -/
theorem C7_flatten_amended (s d : HId) (hs : s.isNode = true) (hd : rightSpine d = true) :
    (∀ (a b : HId) (fl : Flatten), edge_ids a b fl ≠ []) ∧
    (∀ x ∈ edge_ids s d .outgoing, x.isNode = true) ∧
    edge_ids (.node 0) (.comp (.node 1) (.node 2)) .outgoing =
      [.node 0, .node 1, .node 2] := by
  refine ⟨fun a b fl => edge_ids_ne_nil a b fl, ?_, by decide⟩
  intro x hx
  rw [edge_ids_at_outgoing, edge_ids_outgoing_eq] at hx
  rcases List.mem_cons.1 hx with h | h
  · rw [h]; exact hs
  · exact flattenOut_plain d hd x h

/-- C7 witness: the amended statement evaluated on the tree-edge
`(0, (1, 2))`. -/
theorem C7_flatten_witness :
    HId.isNode (.node 0) = true ∧
    rightSpine (.comp (.node 1) (.node 2)) = true ∧
    (∀ x ∈ edge_ids (.node 0) (.comp (.node 1) (.node 2)) .outgoing,
      x.isNode = true) :=
  ⟨by decide, by decide,
    (C7_flatten_amended (.node 0) (.comp (.node 1) (.node 2))
      (by decide) (by decide)).2.1⟩

/-- C9: `get_node_id` returns the unique matching id (under the
allowed/disallowed restriction), raises `KeyError` exactly when no node
matches, and raises the ambiguity `ValueError` naming the first two
conflicting ids exactly when more than one node matches — it never picks
one arbitrarily. -/
theorem C9_get_node_id_trichotomy (doc : HDoc) (data : String)
    (allowed : Option (List Int)) (disallowed : List Int) :
    (get_node_id doc data allowed disallowed = .error .keyErr ↔
      (doc.data.filter (fun n => considered allowed disallowed n && n.data == data)).map Node.id
        = []) ∧
    (∀ i, get_node_id doc data allowed disallowed = .ok i ↔
      (doc.data.filter (fun n => considered allowed disallowed n && n.data == data)).map Node.id
        = [i]) ∧
    (∀ a b, get_node_id doc data allowed disallowed = .error (.ambiguous a b) ↔
      ∃ rest,
        (doc.data.filter (fun n => considered allowed disallowed n && n.data == data)).map Node.id
          = a :: b :: rest) := by
  unfold get_node_id
  rcases h : (doc.data.filter (fun n => considered allowed disallowed n && n.data == data)).map
      Node.id with _ | ⟨r, _ | ⟨c, rest⟩⟩ <;>
    simp_all

theorem firstDup_eq_none_iff (l : List HId) : ∀ s : Finset HId,
    firstDup s l = none ↔ l.Nodup ∧ ∀ x ∈ l, x ∉ s := by
  induction l with
  | nil => intro s; simp [firstDup]
  | cons e rest ih =>
    intro s
    rw [firstDup]
    by_cases he : e ∈ s
    · simp [he]
    · rw [if_neg he, ih]
      simp only [List.nodup_cons, List.mem_cons, Finset.mem_insert]
      constructor
      · rintro ⟨hnd, hall⟩
        refine ⟨⟨fun hmem => (hall e hmem) (Or.inl rfl), hnd⟩, ?_⟩
        rintro x (rfl | hx)
        · exact he
        · exact fun hxs => hall x hx (Or.inr hxs)
      · rintro ⟨⟨hne, hnd⟩, hall⟩
        refine ⟨hnd, fun x hx h2 => ?_⟩
        rcases h2 with rfl | hxs
        · exact hne hx
        · exact hall x (Or.inr hx) hxs

theorem maybe_duplicate_incoming_none_iff (pairs : List (HId × HId)) :
    maybe_duplicate pairs .incoming = none ↔ (pairs.map (fun e => e.1)).Nodup := by
  rw [maybe_duplicate, maybe_duplicate_at, firstDup_eq_none_iff]
  simp

/-- C2 counterexample: in `exSameItem`, the relation node `10` ("owns") is
in `type_2` and its outgoing edges tag exactly the two item-to-tag
connections `1→2` and `1→3`, whose tag side `2, 3` never repeats; yet the
derived field type is `List[str]`, not the single-valued `str`, because the
code runs `maybe_duplicate` on the item side (`1, 1`), not the tag side. -/
theorem C2_tag_side_counterexample :
    okValue (node_types exSameItem) = some ({2, 3}, {10}, {1, 4}) ∧
    connected exSameItem.conn (.node 10) [] .both .outgoing =
      [.comp (.node 1) (.node 2), .comp (.node 1) (.node 3)] ∧
    ([HId.node 2, HId.node 3] : List HId).Nodup ∧
    okValue (synthesize_structure exSameItem [10] {1, 4}) =
      some ("Item", [("id", "int"), ("data", "str"), ("owns", "List[str]")]) := by
  decide

theorem maybe_duplicate_outgoing_none_iff (pairs : List (HId × HId)) :
    maybe_duplicate pairs .outgoing = none ↔ (pairs.map (fun e => e.2)).Nodup := by
  rw [maybe_duplicate, maybe_duplicate_at, firstDup_eq_none_iff]
  simp

/-- C2 amended: for a `type_2` relation node whose tagged edges carry items
on at most one side, the materializer runs `maybe_duplicate` on the
item-side position — `'incoming'` (edge sources) when no destination is an
item, `'outgoing'` (edge destinations) when no source is an item — and the
derived field type is the single-valued `str` exactly when the item-side
values are pairwise distinct, `List[str]` otherwise; the tag side plays no
role.  (Item-to-item relations check both positions via `'either'`, which
inherits the falsy-`or` defect of `maybe_duplicate` on id `0`, so no such
equivalence holds there.) -/
theorem C2_item_side_cardinality (doc : HDoc) (t3 : Finset Int) (clsName : String)
    (i : Int) (data : String) (pairs : List (HId × HId))
    (hpairs : mapO asPair (connected doc.conn (.node i) [] .both .outgoing) = some pairs)
    (hne : pairs ≠ []) :
    ((pairs.map (fun e => e.2)).filter (isItemOf t3) = [] →
      synthField doc t3 clsName i data =
        .ok (data, if (pairs.map (fun e => e.1)).Nodup then "str" else "List[str]")) ∧
    ((pairs.map (fun e => e.1)).filter (isItemOf t3) = [] →
      (pairs.map (fun e => e.2)).filter (isItemOf t3) ≠ [] →
      synthField doc t3 clsName i data =
        .ok (data, if (pairs.map (fun e => e.2)).Nodup then "str" else "List[str]")) := by
  have hne2 : pairs.isEmpty = false := by
    cases pairs with
    | nil => exact absurd rfl hne
    | cons p ps => rfl
  constructor
  · intro hnoitem
    by_cases hnd : (pairs.map (fun e => e.1)).Nodup
    · have hdup : maybe_duplicate pairs .incoming = none :=
        (maybe_duplicate_incoming_none_iff pairs).2 hnd
      simp [synthField, hpairs, hne2, hnoitem, hdup, hnd]
    · have hdup : maybe_duplicate pairs .incoming ≠ none := fun h =>
        hnd ((maybe_duplicate_incoming_none_iff pairs).1 h)
      rcases Option.ne_none_iff_exists.1 hdup with ⟨v, hv⟩
      simp [synthField, hpairs, hne2, hnoitem, hv, hnd]
      exact hdup
  · intro hnositem hditem
    have hd2 : ((pairs.map (fun e => e.2)).filter (isItemOf t3)).isEmpty = false := by
      cases hfd : (pairs.map (fun e => e.2)).filter (isItemOf t3) with
      | nil => exact absurd hfd hditem
      | cons q qs => rfl
    by_cases hnd : (pairs.map (fun e => e.2)).Nodup
    · have hdup : maybe_duplicate pairs .outgoing = none :=
        (maybe_duplicate_outgoing_none_iff pairs).2 hnd
      simp [synthField, hpairs, hne2, hnositem, hd2, hdup, hnd]
    · have hdup : maybe_duplicate pairs .outgoing ≠ none := fun h =>
        hnd ((maybe_duplicate_outgoing_none_iff pairs).1 h)
      rcases Option.ne_none_iff_exists.1 hdup with ⟨v, hv⟩
      simp [synthField, hpairs, hne2, hnositem, hd2, hv, hnd]
      exact hdup

/-- C2 witness: in `exDistinctItems` the relation node `10` tags the two
item-to-tag connections `1→2` and `4→3`; the destinations `2, 3` are not
items and the item side `1, 4` never repeats, so the derived field type is
the single-valued `str`. -/
theorem C2_item_side_witness :
    mapO asPair (connected exDistinctItems.conn (.node 10) [] .both .outgoing) =
      some [(.node 1, .node 2), (.node 4, .node 3)] ∧
    (([((HId.node 1, HId.node 2) : HId × HId), (.node 4, .node 3)].map
        (fun e => e.2)).filter (isItemOf {1, 4}) = []) ∧
    synthField exDistinctItems {1, 4} "Item" 10 "owns" = .ok ("owns", "str") := by
  refine ⟨by decide, by decide, ?_⟩
  have h := (C2_item_side_cardinality exDistinctItems {1, 4} "Item" 10 "owns"
    [(.node 1, .node 2), (.node 4, .node 3)] (by decide) (by decide)).1 (by decide)
  rw [h, if_pos (by decide)]

theorem edge_ids_outgoing_inj (s d s2 d2 : HId)
    (h : edge_ids_outgoing s d = edge_ids_outgoing s2 d2) : s = s2 ∧ d = d2 := by
  rw [edge_ids_outgoing_eq, edge_ids_outgoing_eq] at h
  simp only [List.cons.injEq] at h
  exact ⟨h.1, flattenOut_inj d d2 h.2⟩

theorem connected_incoming_eq_nil_iff (conn : List Edge) (x : HId) :
    connected conn x [] .both .incoming = [] ↔ ∀ e ∈ conn, e.2 ≠ x := by
  show connected_dir conn x [] .both false = [] ↔ _
  rw [connected_dir, List.filterMap_eq_nil]
  refine forall₂_congr fun e he => ?_
  by_cases hsrc : e.2 = x
  · simp [hsrc]
  · simp [hsrc, bne_iff_ne]

/-- C6: under `remove_subsumed=true`, the hypergraph output never contains
the flattening of an edge that occurs as the destination endpoint of some
edge of the document, and an edge is such exactly when
`connected(edge, direction='incoming')` is non-empty. -/
theorem C6_subsumed_removed (doc : HDoc) (out : List (List HId))
    (h : as_hypergraph doc true = .ok out) (e : Edge) (he : e ∈ doc.conn) :
    ((∃ p ∈ doc.conn, p.2 = toId e) ↔
      (connected doc.conn (toId e) [] .both .incoming).isEmpty = false) ∧
    ((∃ p ∈ doc.conn, p.2 = toId e) → edge_ids e.1 e.2 .outgoing ∉ out) := by
  have hiff : (∃ p ∈ doc.conn, p.2 = toId e) ↔
      (connected doc.conn (toId e) [] .both .incoming).isEmpty = false := by
    rw [← Bool.not_eq_true, List.isEmpty_iff, connected_incoming_eq_nil_iff]
    push_neg
    constructor
    · rintro ⟨p, hp, hpe⟩; exact ⟨p, hp, hpe⟩
    · rintro ⟨p, hp, hpe⟩; exact ⟨p, hp, hpe⟩
  refine ⟨hiff, fun hsub hmem => ?_⟩
  rw [as_hypergraph] at h
  by_cases hg : allow_in [.T, .property_graph, .edge_colored_graph, .graph] doc
  · rw [if_pos hg] at h
    have hout := Except.ok.inj h
    rw [← hout] at hmem
    rcases List.mem_filterMap.1 hmem with ⟨e2, he2, hfe2⟩
    by_cases hcond :
        (connected doc.conn (toId e2) [] .both .incoming).isEmpty = true
    · simp only [Bool.not_true, Bool.false_or, hcond, if_pos] at hfe2
      have hfl : edge_ids_outgoing e2.1 e2.2 = edge_ids_outgoing e.1 e.2 := by
        have := Option.some.inj hfe2
        rwa [edge_ids_at_outgoing, edge_ids_at_outgoing] at this
      obtain ⟨h1, h2⟩ := edge_ids_outgoing_inj _ _ _ _ hfl
      have he2e : toId e2 = toId e := by rw [toId, toId, h1, h2]
      rw [he2e] at hcond
      rw [hiff.1 hsub] at hcond
      exact Bool.false_ne_true hcond
    · simp only [Bool.not_true, Bool.false_or, hcond, if_neg] at hfe2
      simp at hfe2
  · rw [if_neg hg] at h
    exact absurd h (by simp)

/-- C6 witness: in the tree document, the inner edge `(1, 2)` is the
destination of `(0, (1, 2))` and its flattening is absent from the
hypergraph output. -/
theorem C6_subsumed_witness :
    as_hypergraph exTree true = .ok [[HId.node 0, .node 1, .node 2]] ∧
    ((HId.node 1, HId.node 2) : Edge) ∈ exTree.conn ∧
    (∃ p ∈ exTree.conn, p.2 = toId (HId.node 1, HId.node 2)) ∧
    edge_ids (HId.node 1) (HId.node 2) .outgoing ∉
      [[HId.node 0, HId.node 1, HId.node 2]] := by
  have h1 : as_hypergraph exTree true = .ok [[HId.node 0, .node 1, .node 2]] := by rfl
  have hsub : ∃ p ∈ exTree.conn, p.2 = toId (HId.node 1, HId.node 2) :=
    ⟨(.node 0, .comp (.node 1) (.node 2)), by decide, by decide⟩
  exact ⟨h1, by decide, hsub,
    (C6_subsumed_removed exTree [[HId.node 0, .node 1, .node 2]] h1
      (HId.node 1, HId.node 2) (by decide)).2 hsub⟩

theorem mem_id_set_match_zero (doc : HDoc) (r : Returns) (d : Direction) (x : Int) :
    x ∈ id_set doc (match_zero doc r d) ↔
      x ∈ all_ids doc ∧ connected doc.conn (.node x) [] r d = [] := by
  simp only [id_set, all_ids, List.mem_toFinset, List.mem_map, List.mem_filter, match_zero,
    List.isEmpty_iff]
  constructor
  · rintro ⟨n, ⟨hmem, hmz⟩, rfl⟩
    exact ⟨⟨n, hmem, rfl⟩, hmz⟩
  · rintro ⟨⟨n, hmem, rfl⟩, hmz⟩
    exact ⟨n, ⟨hmem, hmz⟩, rfl⟩

theorem id_set_subset_all_ids (doc : HDoc) (p : Node → Bool) :
    id_set doc p ⊆ all_ids doc := by
  intro x hx
  simp only [id_set, all_ids, List.mem_toFinset, List.mem_map, List.mem_filter] at hx ⊢
  obtain ⟨n, ⟨hmem, _⟩, hid⟩ := hx
  exact ⟨n, hmem, hid⟩

theorem connected_both_outgoing_nil (conn : List Edge) (x : HId)
    (he : connected conn x [] .edges .outgoing = [])
    (hn : connected conn x [] .nodes .outgoing = []) :
    connected conn x [] .both .outgoing = [] := by
  rw [show connected conn x [] .edges .outgoing = connected_dir conn x [] .edges true from rfl,
    connected_dir, List.filterMap_eq_nil_iff] at he
  rw [show connected conn x [] .nodes .outgoing = connected_dir conn x [] .nodes true from rfl,
    connected_dir, List.filterMap_eq_nil_iff] at hn
  show connected_dir conn x [] .both true = []
  rw [connected_dir, List.filterMap_eq_nil_iff]
  intro e he2
  have h1 := he e he2
  have h2 := hn e he2
  by_cases hsrc : e.1 = x
  · exfalso
    cases hdst : HId.isNode e.2 with
    | false => simp [hsrc, hdst] at h1
    | true => simp [hsrc, hdst] at h2
  · simp [bne_iff_ne, hsrc]

/-- C1: for every document passing the mode guard, `node_types` succeeds
(its disjointness assert cannot fire) with three pairwise disjoint id sets
whose union, together with the excluded disconnected set, is exactly the
set of all node ids. -/
theorem C1_node_types_partition (doc : HDoc)
    (h : allow_in [.property_graph, .edge_colored_graph] doc = true) :
    node_types doc = .ok (type_1 doc, type_2 doc, type_3 doc) ∧
    type_1 doc ∩ type_2 doc = ∅ ∧ type_2 doc ∩ type_3 doc = ∅ ∧
    type_3 doc ∩ type_1 doc = ∅ ∧
    type_1 doc ∪ type_2 doc ∪ type_3 doc ∪ disconnected_nodes doc = all_ids doc := by
  have d12 : type_1 doc ∩ type_2 doc = ∅ := by
    ext x
    simp only [Finset.mem_inter, Finset.not_mem_empty, iff_false, not_and]
    intro h1 h2
    rw [type_1, Finset.mem_sdiff, Finset.mem_inter, Finset.mem_union] at h1
    rw [type_2, Finset.mem_sdiff, Finset.mem_inter] at h2
    obtain ⟨⟨_, hotn⟩, hnd⟩ := h1
    obtain ⟨⟨hni, hote⟩, _⟩ := h2
    apply hnd
    rw [disconnected_nodes, mem_id_set_match_zero]
    rw [only_to_nodes, mem_id_set_match_zero] at hotn
    rw [only_to_edges, mem_id_set_match_zero] at hote
    rw [no_incoming, mem_id_set_match_zero] at hni
    refine ⟨hotn.1, ?_⟩
    show connected_dir doc.conn (.node x) [] .both false ++
      connected_dir doc.conn (.node x) [] .both true = []
    rw [List.append_eq_nil]
    exact ⟨hni.2, connected_both_outgoing_nil doc.conn (.node x) hotn.2 hote.2⟩
  have d23 : type_2 doc ∩ type_3 doc = ∅ := by
    ext x
    simp only [Finset.mem_inter, Finset.not_mem_empty, iff_false, not_and, type_3,
      Finset.mem_sdiff]
    tauto
  have d31 : type_3 doc ∩ type_1 doc = ∅ := by
    ext x
    simp only [Finset.mem_inter, Finset.not_mem_empty, iff_false, not_and, type_3,
      Finset.mem_sdiff]
    tauto
  have hunion : type_1 doc ∪ type_2 doc ∪ type_3 doc ∪ disconnected_nodes doc
      = all_ids doc := by
    ext x
    simp only [Finset.mem_union]
    constructor
    · rintro (((h1 | h1) | h1) | h1)
      · exact id_set_subset_all_ids doc _
          (Finset.mem_of_mem_inter_right (Finset.mem_sdiff.1 h1).1)
      · exact id_set_subset_all_ids doc _
          (Finset.mem_of_mem_inter_right (Finset.mem_sdiff.1 h1).1)
      · exact (Finset.mem_sdiff.1 (Finset.mem_sdiff.1 (Finset.mem_sdiff.1 h1).1).1).1
      · exact id_set_subset_all_ids doc _ h1
    · intro hx
      by_cases h1 : x ∈ type_1 doc
      · exact Or.inl (Or.inl (Or.inl h1))
      by_cases h2 : x ∈ type_2 doc
      · exact Or.inl (Or.inl (Or.inr h2))
      by_cases hd : x ∈ disconnected_nodes doc
      · exact Or.inr hd
      refine Or.inl (Or.inr ?_)
      rw [type_3]
      exact Finset.mem_sdiff.2 ⟨Finset.mem_sdiff.2 ⟨Finset.mem_sdiff.2 ⟨hx, h1⟩, h2⟩, hd⟩
  refine ⟨?_, d12, d23, d31, hunion⟩
  rw [node_types, if_pos h, if_pos ⟨by rw [d12, d23], by rw [d23, d31], d31⟩]

/-- C1 witness: the partition evaluated on the property-graph document
`exSameItem`. -/
theorem C1_partition_witness :
    allow_in [.property_graph, .edge_colored_graph] exSameItem = true ∧
    node_types exSameItem = .ok (type_1 exSameItem, type_2 exSameItem, type_3 exSameItem) ∧
    type_1 exSameItem ∪ type_2 exSameItem ∪ type_3 exSameItem ∪
      disconnected_nodes exSameItem = all_ids exSameItem :=
  ⟨by decide, (C1_node_types_partition exSameItem (by decide)).1,
    (C1_node_types_partition exSameItem (by decide)).2.2.2.2⟩

theorem allow_in_eq_false_iff (modes : List Mode) (doc : HDoc) :
    allow_in modes doc = false ↔ ∃ m, doc.mode = some m ∧ m ∉ modes := by
  cases hm : doc.mode with
  | none => simp [allow_in, hm]
  | some m => simp [allow_in, hm]



theorem isModeErr_error {α : Type} (e : HErr) :
    isModeErr (.error e : Except HErr α) = isModeErrE e := by
  cases e <;> rfl

theorem isModeErr_mapE {α β : Type} (f : α → Except HErr β) (l : List α)
    (h : ∀ a ∈ l, isModeErr (f a) = false) : isModeErr (mapE f l) = false := by
  induction l with
  | nil => rfl
  | cons a l ih =>
    rw [mapE]
    cases hfa : f a with
    | error e =>
      have h1 := h a (List.mem_cons_self a l)
      rw [hfa, isModeErr_error] at h1
      simpa [isModeErr_error] using h1
    | ok b =>
      cases hml : mapE f l with
      | error e =>
        have h2 := ih (fun x hx => h x (List.mem_cons_of_mem a hx))
        rw [hml, isModeErr_error] at h2
        simpa [isModeErr_error] using h2
      | ok bs => simp [isModeErr]

theorem isModeErr_synthField (doc : HDoc) (t3 : Finset Int) (c : String) (i : Int)
    (s : String) : isModeErr (synthField doc t3 c i s) = false := by
  simp only [synthField]
  cases hmo : mapO asPair (connected doc.conn (.node i) [] .both .outgoing) with
  | none => rfl
  | some pairs =>
    by_cases hp : pairs.isEmpty = true <;> simp [hp, isModeErr]

theorem isModeErr_objGet (io : List (Int × PyObj)) (x : HId) :
    isModeErr (objGet io x) = false := by
  cases x with
  | node n => cases h : io.reverse.find? (fun p => p.1 == n) <;> simp [objGet, h, isModeErr]
  | comp a b => rfl

theorem isModeErr_dataGet (doc : HDoc) (x : HId) :
    isModeErr (dataGet doc x) = false := by
  cases x with
  | node n => cases h : doc.data.find? (fun nd => nd.id == n) <;> simp [dataGet, h, isModeErr]
  | comp a b => rfl

theorem isModeErr_applyHint (doc : HDoc) (io : List (Int × PyObj)) (pid : Int)
    (T : PyType) (o : PyObj) : isModeErr (applyHint doc io pid T o) = false := by
  unfold applyHint
  by_cases hc : collection_of T = true
  · rw [if_pos hc]
    by_cases hp : proper_collection T = true
    · rw [if_pos hp]
      cases hm : mapE (objGet io)
          (connected doc.conn (.node o.id) [.node pid] .both .outgoing) with
      | error e =>
        have h2 := isModeErr_mapE (objGet io)
          (connected doc.conn (.node o.id) [.node pid] .both .outgoing)
          (fun a _ => isModeErr_objGet io a)
        rw [hm, isModeErr_error] at h2
        simp [hm, isModeErr_error]
        simpa using h2
      | ok os => simp [hm, isModeErr]
    · rw [if_neg hp]
      cases hids : connected doc.conn (.node o.id) [.node pid] .both .outgoing with
      | nil => simp [hids, isModeErr]
      | cons x rest =>
        cases hx : objGet io x with
        | error e =>
          have h2 := isModeErr_objGet io x
          rw [hx, isModeErr_error] at h2
          simp [hids, hx, isModeErr_error]
          simpa using h2
        | ok ob => simp [hids, hx, isModeErr]
  · rw [if_neg hc]
    by_cases hp : proper_collection T = true
    · rw [if_pos hp]
      cases hm : mapE (dataGet doc)
          (connected doc.conn (.node o.id) [.node pid] .both .outgoing) with
      | error e =>
        have h2 := isModeErr_mapE (dataGet doc)
          (connected doc.conn (.node o.id) [.node pid] .both .outgoing)
          (fun a _ => isModeErr_dataGet doc a)
        rw [hm, isModeErr_error] at h2
        simp [hm, isModeErr_error]
        simpa using h2
      | ok ss => simp [hm, isModeErr]
    · rw [if_neg hp]
      cases hids : connected doc.conn (.node o.id) [.node pid] .both .outgoing with
      | nil => simp [hids, isModeErr]
      | cons x rest =>
        cases hx : dataGet doc x with
        | error e =>
          have h2 := isModeErr_dataGet doc x
          rw [hx, isModeErr_error] at h2
          simp [hids, hx, isModeErr_error]
          simpa using h2
        | ok s2 => simp [hids, hx, isModeErr]

theorem isModeErr_objectsLoop (doc : HDoc) (prop_id : List (String × Int))
    (hints : List (String × PyType)) :
    ∀ io : List (Int × PyObj), isModeErr (objectsLoop doc prop_id hints io) = false := by
  induction hints with
  | nil => intro io; rfl
  | cons dT rest ih =>
    intro io
    obtain ⟨d, T⟩ := dT
    rw [objectsLoop]
    cases hd : dictFind prop_id d with
    | none =>
      simpa using ih io
    | some pid =>
      have helem : ∀ p ∈ io, isModeErr
          ((fun p : Int × PyObj =>
            match applyHint doc io pid T p.2 with
            | .error e => .error e
            | .ok v => .ok (p.1, setAttr p.2 d v)) p) = false := by
        intro p _
        cases hap : applyHint doc io pid T p.2 with
        | error e2 =>
          have h3 := isModeErr_applyHint doc io pid T p.2
          rw [hap, isModeErr_error] at h3
          simp [hap, isModeErr_error]
          simpa using h3
        | ok v => simp [hap, isModeErr]
      cases hm : mapE (fun p : Int × PyObj =>
          match applyHint doc io pid T p.2 with
          | .error e => .error e
          | .ok v => .ok (p.1, setAttr p.2 d v)) io with
      | error e =>
        have h2 := isModeErr_mapE _ io helem
        rw [hm, isModeErr_error] at h2
        simp [hm, isModeErr_error]
        simpa using h2
      | ok io2 =>
        simpa [hm] using ih io2



/-- C10: each of the four mode-guarded operations raises the `allow_in`
mode error exactly when the document declares a mode outside that
operation's allowed set; in particular a document that declares no mode at
all never triggers a mode error, whatever the other arguments. -/
theorem C10_mode_guard (doc : HDoc) (rs : Bool) (t2 : List Int) (t3 : Finset Int)
    (l1 l2 l3 : List Int) (hints : List (String × PyType)) :
    (isModeErr (as_hypergraph doc rs) = true ↔
      ∃ m, doc.mode = some m ∧
        m ∉ ([.T, .property_graph, .edge_colored_graph, .graph] : List Mode)) ∧
    (isModeErr (node_types doc) = true ↔
      ∃ m, doc.mode = some m ∧
        m ∉ ([.property_graph, .edge_colored_graph] : List Mode)) ∧
    (isModeErr (synthesize_structure doc t2 t3) = true ↔
      ∃ m, doc.mode = some m ∧
        m ∉ ([.property_graph, .edge_colored_graph] : List Mode)) ∧
    (isModeErr (as_objects doc l1 l2 l3 hints) = true ↔
      ∃ m, doc.mode = some m ∧
        m ∉ ([.property_graph, .edge_colored_graph] : List Mode)) := by
  refine ⟨?_, ?_, ?_, ?_⟩
  · rw [← allow_in_eq_false_iff]
    by_cases hg : allow_in [.T, .property_graph, .edge_colored_graph, .graph] doc = true
    · rw [as_hypergraph, if_pos hg, hg]
      simp [isModeErr]
    · rw [as_hypergraph, if_neg hg]
      rw [Bool.not_eq_true] at hg
      simp [hg, isModeErr]
  · rw [← allow_in_eq_false_iff]
    by_cases hg : allow_in [.property_graph, .edge_colored_graph] doc = true
    · rw [node_types, if_pos hg, hg]
      split <;> simp [isModeErr]
    · rw [node_types, if_neg hg]
      rw [Bool.not_eq_true] at hg
      simp [hg, isModeErr]
  · rw [← allow_in_eq_false_iff]
    by_cases hg : allow_in [.property_graph, .edge_colored_graph] doc = true
    · rw [synthesize_structure, if_pos hg, hg]
      have helem : ∀ i ∈ t2, isModeErr
          ((fun i =>
            match doc.data.find? (fun n => n.id == i) with
            | none => .error .keyErr
            | some n => synthField doc t3
                ((match doc.name with | some s => s | none => "") ++ "Item") n.id n.data) i)
          = false := by
        intro i _
        cases hf : doc.data.find? (fun n => n.id == i) with
        | none => simp [hf, isModeErr]
        | some n =>
          have h3 := isModeErr_synthField doc t3
            ((match doc.name with | some s => s | none => "") ++ "Item") n.id n.data
          simpa [hf] using h3
      cases hm : mapE (fun i =>
          match doc.data.find? (fun n => n.id == i) with
          | none => .error .keyErr
          | some n => synthField doc t3
              ((match doc.name with | some s => s | none => "") ++ "Item") n.id n.data) t2 with
      | error e =>
        have h2 := isModeErr_mapE _ t2 helem
        rw [hm, isModeErr_error] at h2
        simp [hm, isModeErr_error]
        simpa using h2
      | ok fields => simp [hm, isModeErr]
    · rw [synthesize_structure, if_neg hg]
      rw [Bool.not_eq_true] at hg
      simp [hg, isModeErr]
  · rw [← allow_in_eq_false_iff]
    by_cases hg : allow_in [.property_graph, .edge_colored_graph] doc = true
    · rw [as_objects, if_pos hg, hg]
      have helem1 : ∀ i ∈ l2, isModeErr
          ((fun i =>
            match doc.data.find? (fun n => n.id == i) with
            | none => (.error .keyErr : Except HErr (String × Int))
            | some n => .ok (n.data, n.id)) i) = false := by
        intro i _
        cases hf : doc.data.find? (fun n => n.id == i) <;> simp [hf, isModeErr]
      cases hm1 : mapE (fun i =>
          match doc.data.find? (fun n => n.id == i) with
          | none => .error .keyErr
          | some n => .ok (n.data, n.id)) l2 with
      | error e =>
        have h2 := isModeErr_mapE _ l2 helem1
        rw [hm1, isModeErr_error] at h2
        simp [hm1, isModeErr_error]
        simpa using h2
      | ok prop_id =>
        have helem2 : ∀ i ∈ l3, isModeErr
            ((fun i =>
              match doc.data.find? (fun n => n.id == i) with
              | none => (.error .keyErr : Except HErr (Int × PyObj))
              | some n => .ok (i, ({ id := n.id, data := n.data } : PyObj))) i) = false := by
          intro i _
          cases hf : doc.data.find? (fun n => n.id == i) <;> simp [hf, isModeErr]
        cases hm2 : mapE (fun i =>
            match doc.data.find? (fun n => n.id == i) with
            | none => .error .keyErr
            | some n => .ok (i, ({ id := n.id, data := n.data } : PyObj))) l3 with
        | error e =>
          have h2 := isModeErr_mapE _ l3 helem2
          rw [hm2, isModeErr_error] at h2
          simp [hm1, hm2, isModeErr_error]
          simpa using h2
        | ok id_object =>
          cases hm3 : objectsLoop doc prop_id hints id_object with
          | error e =>
            have h2 := isModeErr_objectsLoop doc prop_id hints id_object
            rw [hm3, isModeErr_error] at h2
            simp [hm1, hm2, hm3, isModeErr_error]
            simpa using h2
          | ok io2 => simp [hm1, hm2, hm3, isModeErr]
    · rw [as_objects, if_neg hg]
      rw [Bool.not_eq_true] at hg
      simp [hg, isModeErr]

end HEdit
